import Mathlib

/-!
# Verification of the dyncommands command parser

A shallow embedding, in Lean 4, of the core of the `dyncommands` Python
package (modules `dyncommands/models.py`, `dyncommands/utils.py`,
`dyncommands/parser.py`, `dyncommands/schemas/_impl.py`), together with
theorems settling the specification claims about it.

Python strings are modelled as `List Char`; Python integers as `Int`;
Python dictionaries as association lists; Python exceptions as an
inductive error type threaded through `Except`.  File-system state (the
`commands.json` manifest and the `zzz__<name>.py` script files) is modelled
as an explicit `Disk` value passed in and out of the operations that read
or write it.
-/

namespace Dyncommands

/-- Python strings, modelled as lists of characters. -/
abbrev Str := List Char

/-- Characters stripped by Python `str.strip()` (the ASCII whitespace
characters; the rarely-used non-ASCII Unicode spaces are not modelled). -/
def isPySpace (c : Char) : Bool :=
  c = ' ' || c = '\t' || c = '\n' || c = '\r' || c = Char.ofNat 11 || c = Char.ofNat 12

/-- `str.lstrip()` with no argument. -/
def pyLstrip (s : Str) : Str := s.dropWhile isPySpace

/-- `str.rstrip(chars)` generalised over a character predicate. -/
def pyRstripIf (p : Char → Bool) (s : Str) : Str := (s.reverse.dropWhile p).reverse

/-- `str.strip()` with no argument. -/
def pyStrip (s : Str) : Str := pyRstripIf isPySpace (pyLstrip s)

/-- `str.removeprefix(pre)`: drop `pre` from the front when present, else
return the string unchanged. -/
def pyRemovePrefix (s pre : Str) : Str :=
  if pre.isPrefixOf s then s.drop pre.length else s

/-- `str.lower()` (ASCII case folding, which covers every character the
parser compares case-insensitively). -/
def pyLower (s : Str) : Str := s.map Char.toLower

/-- `str.startswith(pre)`. -/
def pyStartswith (s pre : Str) : Bool := pre.isPrefixOf s

/-- `str.split(sep)` for a one-character separator (every `split` in the
source passes a one-character string: the delimiter `' '`, `'('` and
`':'`): consecutive separators produce empty fields and the result is
never empty. -/
def pySplitChar (sep : Char) : Str → List Str
  | [] => [[]]
  | c :: rest =>
    if c = sep then
      [] :: pySplitChar sep rest
    else
      match pySplitChar sep rest with
      | [] => [[c]]
      | t :: ts => (c :: t) :: ts

/-- `str.find(sub, start)` restricted to successful search: the least index
`i ≥ start` at which `sub` occurs in `s`, if any (Python's `str.index`
raises where this returns `none`). -/
def strFindFrom (s sub : Str) (start : Nat) : Option Nat :=
  (List.range (s.length + 1)).find? (fun i => decide (start ≤ i) && sub.isPrefixOf (s.drop i))

/-- Python's `sub in s` substring test. -/
def strContains (s sub : Str) : Bool := (strFindFrom s sub 0).isSome

/-- `str.replace(old, new, 1)`: replace the first occurrence of `old`. -/
def pyReplaceFirst (s old new : Str) : Str :=
  match strFindFrom s old 0 with
  | some i => s.take i ++ new ++ s.drop (i + old.length)
  | none => s

/-- Inner loop of `str.replace(old, new)` for a non-empty `old`: replace
all occurrences left to right, non-overlapping.  `fuel` bounds the
recursion; every step consumes at least one character, so the caller's
`fuel = s.length` never runs out. -/
def pyReplaceAllFuel (old new : Str) : Nat → Str → Str
  | _, [] => []
  | 0, s => s
  | fuel + 1, c :: rest =>
    if old ≠ [] ∧ old.isPrefixOf (c :: rest) then
      new ++ pyReplaceAllFuel old new fuel ((c :: rest).drop old.length)
    else
      c :: pyReplaceAllFuel old new fuel rest

/-- `str.replace(old, new)` for a non-empty `old` (every use in the source
passes a non-empty pattern). -/
def pyReplaceAll (old new s : Str) : Str := pyReplaceAllFuel old new s.length s

/-- Case-insensitive dictionaries (`requests.structures.CaseInsensitiveDict`)
are association lists whose keys compare through `pyLower`.  `ciInsert`
mirrors `dict.__setitem__`: an existing (case-insensitive) key is replaced
in place, a new key is appended. -/
def ciInsert {α : Type} (d : List (Str × α)) (k : Str) (v : α) : List (Str × α) :=
  if d.any (fun p => pyLower p.1 == pyLower k) then
    d.map (fun p => if pyLower p.1 == pyLower k then (k, v) else p)
  else
    d ++ [(k, v)]

/-- `CaseInsensitiveDict.get`/`__getitem__` lookup. -/
def ciGet {α : Type} (d : List (Str × α)) (k : Str) : Option α :=
  (d.find? (fun p => pyLower p.1 == pyLower k)).map Prod.snd

/-- `CaseInsensitiveDict.pop(k, None)`: remove the entry with the given key. -/
def ciErase {α : Type} (d : List (Str × α)) (k : Str) : List (Str × α) :=
  d.filter (fun p => !(pyLower p.1 == pyLower k))

/-- Build a `CaseInsensitiveDict` from a list of key/value pairs, later
pairs overwriting earlier pairs with the same case-insensitive key
(dict-comprehension semantics). -/
def ciFromList {α : Type} (l : List (Str × α)) : List (Str × α) :=
  l.foldl (fun d p => ciInsert d p.1 p.2) []

/-! ## `dyncommands.models` -/

/-- `CommandSource` (`models.py`): the caller of a command.  The feedback
callback is modelled separately — feedback sent during a parse is collected
into a list by the dispatch functions below. -/
structure CommandSource where
  displayName : Str
  permission : Int
deriving DecidableEq, Repr

/-- `CommandSource.has_permission`: true iff `0 <= perm_lvl <= self.permission`. -/
def CommandSource.hasPermission (src : CommandSource) (permLvl : Int) : Bool :=
  decide (0 ≤ permLvl) && decide (permLvl ≤ src.permission)

/-- `CommandContext` (`models.py`): the original working string and its source. -/
structure CommandContext where
  workingString : Str
  source : CommandSource
deriving DecidableEq, Repr

/-- `Node` (`models.py`), restricted to the fields command execution reads:
name, metadata, permission, children (a case-insensitive mapping, stored as
the list of child nodes looked up by name) and the disabled flag. -/
inductive Node where
  | mk (name usage description : Str) (permission : Int) (disabled : Bool)
       (children : List Node)

def Node.name : Node → Str
  | .mk n _ _ _ _ _ => n

def Node.usage : Node → Str
  | .mk _ u _ _ _ _ => u

def Node.description : Node → Str
  | .mk _ _ d _ _ _ => d

def Node.permission : Node → Int
  | .mk _ _ _ p _ _ => p

def Node.disabled : Node → Bool
  | .mk _ _ _ _ d _ => d

def Node.children : Node → List Node
  | .mk _ _ _ _ _ c => c

/-- Lookup of a child by case-insensitive name: `node.children.get(arg)`.
The children dict is built by a comprehension keyed on each child's name,
so a later child shadows an earlier one with the same key — hence the
search through the reversed list. -/
def Node.childGet (n : Node) (k : Str) : Option Node :=
  n.children.reverse.find? (fun c => pyLower c.name == pyLower k)

/-! ## Claim C4 — `CommandSource.has_permission` -/

/-- **C4.** For every `CommandSource` with permission level `caller` and every
integer `required`, `has_permission(required)` returns true iff
`0 ≤ required ≤ caller`; consequently `required < 0` is never satisfiable,
and `required = 0` is satisfiable for every caller with a non-negative
permission level. -/
theorem C4_has_permission_iff (src : CommandSource) (required : Int) :
    (src.hasPermission required = true ↔ 0 ≤ required ∧ required ≤ src.permission)
    ∧ (required < 0 → src.hasPermission required = false)
    ∧ (0 ≤ src.permission → src.hasPermission 0 = true) := by
  refine ⟨?_, ?_, ?_⟩
  · simp [CommandSource.hasPermission]
  · intro hneg
    simp [CommandSource.hasPermission]
    omega
  · intro hpos
    simp [CommandSource.hasPermission]
    omega

/-- Witness for C4 at a concrete source of permission level 5 and
required level 0. -/
theorem C4_has_permission_iff_witness :
    CommandSource.hasPermission ⟨[], 5⟩ 0 = true :=
  (C4_has_permission_iff ⟨[], 5⟩ 0).2.2 (by decide)


/-! ## `dyncommands.exceptions` -/

/-- Decimal rendering of an integer, for the interpolated error messages. -/
def intToStr (i : Int) : Str :=
  if i < 0 then '-' :: Nat.toDigits 10 i.natAbs else Nat.toDigits 10 i.natAbs

/-- The exception taxonomy of `exceptions.py`.  `other` stands for an
arbitrary Python exception outside the `CommandError` hierarchy (e.g. a
`ValueError` raised by a command script), carrying its class name and its
message.  `commandError` is the base `CommandError` wrapper with its
`parent` cause; the four subclasses carry the data their constructors
interpolate into their messages and have themselves as `parent`. -/
inductive PyExc where
  | other (excName message : Str)
  | commandError (cause : Option PyExc) (message : Str)
  | disabledError (cmdName : Str)
  | improperUsageError (message : Str)
  | noPermissionError (displayName cmdName : Str) (sourcePerm requiredPerm : Int)
  | notFoundError (name : Str)

/-- `isinstance(e, CommandError)`: everything in the taxonomy except a
foreign exception. -/
def PyExc.isCommandError : PyExc → Bool
  | .other _ _ => false
  | _ => true

/-- `isinstance(e, ImproperUsageError)`. -/
def PyExc.isImproperUsage : PyExc → Bool
  | .improperUsageError _ => true
  | _ => false

/-- The `parent` attribute: the base `CommandError` stores the wrapped
cause; each subclass passes itself as parent in its constructor
(`super().__init__(command, context, self, ...)`); a foreign exception has
none. -/
def PyExc.parent : PyExc → Option PyExc
  | .commandError cause _ => cause
  | .other _ _ => none
  | e => some e

/-- The Python class name of the exception, as read by the parse logging
line `e.parent.__class__.__name__`. -/
def PyExc.clsName : PyExc → Str
  | .other n _ => n
  | .commandError _ _ => ("CommandError".data)
  | .disabledError _ => ("DisabledError".data)
  | .improperUsageError _ => ("ImproperUsageError".data)
  | .noPermissionError _ _ _ _ => ("NoPermissionError".data)
  | .notFoundError _ => ("NotFoundError".data)

/-- `str(e)`: the message each constructor in `exceptions.py` builds. -/
def PyExc.msg : PyExc → Str
  | .other _ m => m
  | .commandError _ m => m
  | .disabledError n => ("'".data) ++ n ++ ("' is disabled, enable to execute.".data)
  | .improperUsageError m => m
  | .noPermissionError disp n sp rp =>
      ("'".data) ++ disp ++ ("' did not have the required permissions (".data)
        ++ intToStr sp ++ ("/".data) ++ intToStr rp
        ++ (") to use the '".data) ++ n ++ ("' command.".data)
  | .notFoundError n => ("'".data) ++ n ++ ("' is not a registered command.".data)

/-- The default message of the base `CommandError` constructor:
`'{display_name}' failed executing the '{name}' command.` -/
def commandFailMsg (displayName cmdName : Str) : Str :=
  ("'".data) ++ displayName ++ ("' failed executing the '".data)
    ++ cmdName ++ ("' command.".data)

/-! ## `dyncommands.parser` — `Command` and execution -/

/-- The entry point bound to a command (`Command._function`): it receives
the positional argument tokens and the call context and either returns an
optional string or raises.  (In the source the function also receives
`self`, `parser` and host kwargs, wrapped in `PrivateProxy` objects when
the sandbox is active; the proxy's attribute filtering is modelled
separately below, so the function type here keeps only the data the
claims quantify over.) -/
abbrev CmdFn := List Str → CommandContext → Except PyExc (Option Str)

/-- `utils.DUMMY_FUNC`: accepts anything, returns `None`. -/
def DUMMY_FUNC : CmdFn := fun _ _ => .ok none

/-- The `CommandParser` construction flags read during execution:
`_ignore_permission`, `_unrestricted` and `_silent`. -/
structure ParserCfg where
  ignorePermission : Bool
  unrestricted : Bool
  silent : Bool
deriving DecidableEq, Repr

/-- A `Command` (`parser.py`): its `Node` data plus the bound executable. -/
structure Command where
  node : Node
  fn : CmdFn

/-- The argument walk of `Command._execute`:
`for arg in args: final_node = final_node.children.get(arg, final_node)` —
a token matching a child of the current node descends into it, any other
token leaves the current node unchanged and the walk continues. -/
def walkArgs (n : Node) (args : List Str) : Node :=
  args.foldl (fun m t => (m.childGet t).getD m) n

/-- `final_node` as computed at the start of `Command._execute`. -/
def Command.finalNode (cmd : Command) (args : List Str) : Node :=
  walkArgs cmd.node args

/-- `Command._execute` (`parser.py`): resolve the final node, check the
disabled flags, check the permission of the final node (unless the parser
ignores permissions), call the bound function, and wrap any exception it
raises in a `CommandError` whose cause is the original exception. -/
def Command.execute (cmd : Command) (cfg : ParserCfg) (ctx : CommandContext)
    (args : List Str) : Except PyExc (Option Str) :=
  let fin := cmd.finalNode args
  if !cmd.node.disabled && !fin.disabled then
    if ctx.source.hasPermission fin.permission || cfg.ignorePermission then
      match cmd.fn args ctx with
      | .ok v => .ok v
      | .error e =>
          .error (.commandError (some e)
            (commandFailMsg ctx.source.displayName cmd.node.name))
    else
      .error (.noPermissionError ctx.source.displayName fin.name
        ctx.source.permission fin.permission)
  else
    .error (.disabledError cmd.node.name)

/-! ## Claim C6 — disabled commands fail before any permission check -/

/-- **C6.** For every command marked disabled (or whose resolved argument
node is disabled), executing it raises `DisabledError`, for every caller —
including callers whose permission level exceeds the command's requirement
— and for parsers configured to ignore permissions: the result does not
depend on the source's permission level or on `_ignore_permission`. -/
theorem C6_disabled_before_permission (cmd : Command) (cfg : ParserCfg)
    (ctx : CommandContext) (args : List Str)
    (h : cmd.node.disabled = true ∨ (cmd.finalNode args).disabled = true) :
    cmd.execute cfg ctx args = .error (.disabledError cmd.node.name) := by
  unfold Command.execute
  rcases h with h | h <;> simp [h]

/-- Witness for C6: a disabled command with permission requirement 0, a
caller of permission level 1000, and a parser that ignores permissions
still fail with `DisabledError`. -/
theorem C6_disabled_before_permission_witness :
    Command.execute ⟨.mk ("t".data) [] [] 0 true [], DUMMY_FUNC⟩
        ⟨true, false, false⟩ ⟨[], ⟨[], 1000⟩⟩ [] =
      .error (.disabledError ("t".data)) :=
  C6_disabled_before_permission _ _ _ _ (Or.inl (by decide))

/-! ## Claim C3 — how the argument walk resolves the effective permission -/

/-- The argument walk as the SPEC sentence describes it: descend while each
token names a child, and **stop the walk entirely** at the first
non-matching token.  Written from the spec's words, for comparison with
the code's walk `walkArgs`. -/
def specStopWalk : Node → List Str → Node
  | n, [] => n
  | n, a :: rest =>
    match n.childGet a with
    | some c => specStopWalk c rest
    | none => n

/-- A two-node tree for the C3 counterexample: the command has permission 0
and one child `b` with permission 5. -/
def c3Root : Node := .mk ("root".data) [] [] 0 false [.mk ("b".data) [] [] 5 false []]

/-- Counterexample to C3 as stated.  With the tree `c3Root` and tokens
`["a", "b"]`, the spec's walk stops at the first non-matching token `"a"`
and ends at the command itself (permission 0, which a permission-0 caller
satisfies), but the code skips the non-matching token, descends into `b`
at the second token, and denies the call against `b`'s permission 5. -/
theorem C3_walk_counterexample :
    Command.execute ⟨c3Root, DUMMY_FUNC⟩ ⟨false, false, false⟩ ⟨[], ⟨[], 0⟩⟩
        [("a".data), ("b".data)] =
      .error (.noPermissionError [] ("b".data) 0 5)
    ∧ (specStopWalk c3Root [("a".data), ("b".data)]).name = ("root".data)
    ∧ (specStopWalk c3Root [("a".data), ("b".data)]).permission = 0
    ∧ CommandSource.hasPermission ⟨[], 0⟩ 0 = true := by
  refine ⟨by rfl, by decide, by decide, by decide⟩

/-- **C3 (amended).** Execution resolves the effective permission by walking
the tokens left to right starting at the command: at each step it descends
into a child whose name equals the token if one exists, and otherwise
**keeps the current node and continues with the next token** (a
non-matching token is skipped; the walk does not stop).  The node reached
after all tokens supplies the permission level checked against the
caller. -/
theorem C3_walk_skips_and_continues :
    (∀ (n : Node) (a : Str) (rest : List Str),
        n.childGet a = none → walkArgs n (a :: rest) = walkArgs n rest)
    ∧ (∀ (n c : Node) (a : Str) (rest : List Str),
        n.childGet a = some c → walkArgs n (a :: rest) = walkArgs c rest)
    ∧ (∀ (cmd : Command) (cfg : ParserCfg) (ctx : CommandContext) (args : List Str),
        cmd.node.disabled = false → (walkArgs cmd.node args).disabled = false →
        ctx.source.hasPermission (walkArgs cmd.node args).permission = false →
        cfg.ignorePermission = false →
        cmd.execute cfg ctx args =
          .error (.noPermissionError ctx.source.displayName
            (walkArgs cmd.node args).name ctx.source.permission
            (walkArgs cmd.node args).permission)) := by
  refine ⟨?_, ?_, ?_⟩
  · intro n a rest h
    simp [walkArgs, h]
  · intro n c a rest h
    simp [walkArgs, h]
  · intro cmd cfg ctx args h1 h2 h3 h4
    unfold Command.execute
    simp [Command.finalNode, h1, h2, h3, h4]

/-- Witness for C3 (amended): at a childless node the token `"x"` matches
no child, so the walk skips it and continues; and a concrete execution is
denied with the permission of the walk's final node. -/
theorem C3_walk_skips_and_continues_witness :
    walkArgs c3Root [("x".data), ("x".data)] = walkArgs c3Root [("x".data)]
    ∧ Command.execute ⟨c3Root, DUMMY_FUNC⟩ ⟨false, false, false⟩ ⟨[], ⟨[], -1⟩⟩ [] =
        .error (.noPermissionError [] ("root".data) (-1) 0) :=
  ⟨C3_walk_skips_and_continues.1 c3Root ("x".data) [("x".data)] (by rfl),
   C3_walk_skips_and_continues.2.2 ⟨c3Root, DUMMY_FUNC⟩ ⟨false, false, false⟩
     ⟨[], ⟨[], -1⟩⟩ [] (by rfl) (by rfl) (by rfl) rfl⟩

/-! ## Claim C5 — the capability proxy's exposure rule -/

/-- The type information about a host attribute value that the filtering
predicates inspect: whether the value is itself already a `PrivateProxy`,
and whether it is a `pathlib.Path`. -/
structure AttrValue where
  isProxy : Bool
  isPath : Bool
deriving DecidableEq, Repr

/-- One step of the loop in `PrivateProxy.__init__` (`utils.py`): whether
the attribute `(name, value)` of the source object is copied onto the
proxy.  The attribute is private when the exclusion predicate accepts it
or (with `starting_underscore_private`) its name starts with an
underscore, and a private attribute is skipped unless the inclusion
predicate overrides. -/
def privateProxyExposes (excludePred includePred : Str → AttrValue → Bool)
    (startingUnderscorePrivate : Bool) (name : Str) (v : AttrValue) : Bool :=
  let isPrivate := excludePred name v
    || (pyStartswith name ("_".data) && startingUnderscorePrivate)
  !(isPrivate && !includePred name v)

/-- `CommandParser._should_hide_attr` (`parser.py`): nothing is hidden in
unrestricted mode; otherwise hide `Path` values and names starting with an
underscore, but never a value that is already a proxy. -/
def shouldHideAttr (cfg : ParserCfg) (name : Str) (o : AttrValue) : Bool :=
  if cfg.unrestricted then false
  else !o.isProxy && (o.isPath || pyStartswith name ("_".data))

/-- **C5.** With the default `starting_underscore_private = true` (as the
parser uses it), the proxy exposes an attribute `(name, value)` iff
`include(name, value)` is true, or `exclude(name, value)` is false and
`name` does not start with an underscore; and a value that is already a
proxy is never considered private by `CommandParser._should_hide_attr`. -/
theorem C5_proxy_exposure_rule :
    (∀ (excludePred includePred : Str → AttrValue → Bool) (name : Str) (v : AttrValue),
        privateProxyExposes excludePred includePred true name v =
          (includePred name v
            || (!excludePred name v && !pyStartswith name ("_".data))))
    ∧ (∀ (cfg : ParserCfg) (name : Str) (v : AttrValue),
        v.isProxy = true → shouldHideAttr cfg name v = false) := by
  constructor
  · intro ex inc name v
    simp only [privateProxyExposes]
    cases hi : inc name v <;> cases he : ex name v
      <;> cases hu : pyStartswith name ("_".data) <;> simp [hi, he, hu]
  · intro cfg name v h
    simp [shouldHideAttr, h]

/-- Witness for C5: the second conjunct applied to a concrete
already-proxied value under a restricted parser. -/
theorem C5_proxy_exposure_rule_witness :
    shouldHideAttr ⟨false, false, false⟩ ("_hidden".data) ⟨true, false⟩ = false :=
  C5_proxy_exposure_rule.2 ⟨false, false, false⟩ ("_hidden".data) ⟨true, false⟩ rfl

/-! ## `dyncommands.schemas` — `CommandData` -/

/-- `CommandData` (`schemas/_impl.py`): the durable representation of one
command.  `function` is the tri-state `true`/`false`/absent.  `overridable`
is kept as an `Option` because the claims hinge on how an absent key
resolves; `permission`, `usage`, `description` and `disabled` are stored
already resolved.  A child entry of the manifest is consumed in exactly
one place — `Command.__init__` builds a `Node` from its fields — so the
`children` field is stored directly as the node data it denotes. -/
inductive CommandData where
  | mk (name usage description : Str) (permission : Int) (function : Option Bool)
       (children : List Node) (overridable : Option Bool) (disabled : Bool)

def CommandData.name : CommandData → Str
  | .mk n _ _ _ _ _ _ _ => n

def CommandData.usage : CommandData → Str
  | .mk _ u _ _ _ _ _ _ => u

def CommandData.description : CommandData → Str
  | .mk _ _ d _ _ _ _ _ => d

def CommandData.permission : CommandData → Int
  | .mk _ _ _ p _ _ _ _ => p

def CommandData.function : CommandData → Option Bool
  | .mk _ _ _ _ f _ _ _ => f

def CommandData.children : CommandData → List Node
  | .mk _ _ _ _ _ c _ _ => c

def CommandData.overridableKey : CommandData → Option Bool
  | .mk _ _ _ _ _ _ o _ => o

def CommandData.disabled : CommandData → Bool
  | .mk _ _ _ _ _ _ _ d => d

/-- The `overridable` attribute as `SchemaHolder.__getitem__` resolves it.
Modelled from the spec: the `command.schema.json` resource consulted for an
absent key is not among the sources under review; per the spec's manifest
interface, `overridable` defaults to `true`. -/
def CommandData.overridable (c : CommandData) : Bool :=
  c.overridableKey.getD true

/-- `CommandData.empty()`: `cls(name='')` — only the name key is present,
so every other attribute resolves through the schema defaults. -/
def CommandData.empty : CommandData := .mk [] [] [] 0 none [] none false

/-! ## `dyncommands.parser` — parser state and `parse` -/

/-- The in-memory state of a `CommandParser` that the dispatch and mutation
paths read and write: the command set (`self.commands`, case-insensitive),
the manifest mirror (`self.command_data`), the prefix and the delimiter,
plus the construction flags. -/
structure ParserState where
  commands : List (Str × Command)
  commandData : List CommandData
  commandPrefix : Str
  delimitingStr : Char
  cfg : ParserCfg

/-- The trailing control character `'\U000e0000'` stripped by `parse`. -/
def isTagChar (c : Char) : Bool := c = Char.ofNat 0xE0000

/-- Everything one call to `CommandParser.parse` produced: the strings sent
through `context.source.send_feedback`, the messages passed to
`CommandParser.print` (printed unless `_silent`), and the exception
propagated to the caller of `parse`, if any. -/
structure ParseResult where
  feedback : List Str
  printCalls : List Str
  error : Option PyExc

/-- The dispatch core of `CommandParser.parse`: the `try/except` around the
command call.  A return value is sent as feedback.  A raised
`CommandError` is logged through `self.print`; if its `parent` cause is an
`ImproperUsageError` with a non-empty message, that message is sent as
feedback with the `!#prefix#!` placeholder replaced by the live prefix;
and the cause is re-raised only when it is itself a `CommandError`. -/
def runCommand (st : ParserState) (cmd : Command) (ctx : CommandContext)
    (args : List Str) : ParseResult :=
  match cmd.execute st.cfg ctx args with
  | .ok (some rv) => ⟨[rv], [], none⟩
  | .ok none => ⟨[], [], none⟩
  | .error e =>
    let p := e.parent
    let logLine : Str := match p with
      | some pe => pe.clsName ++ (" while executing command: ".data) ++ pe.msg
      | none => ("NoneType while executing command: None".data)
    let fb : List Str := match p with
      | some (.improperUsageError m) =>
          if m ≠ [] then [pyReplaceAll ("!#prefix#!".data) st.commandPrefix m] else []
      | _ => []
    let err : Option PyExc := match p with
      | some pe => if pe.isCommandError then some pe else none
      | none => none
    ⟨fb, [logLine], err⟩

/-- `CommandParser.parse` (`parser.py`): strip the prefix (when present),
strip trailing `'\U000e0000'` markers and surrounding whitespace; on an
empty remainder do nothing; otherwise split on the delimiter, look the
first token up case-insensitively, and either dispatch through
`runCommand` or raise `NotFoundError`. -/
def parse (st : ParserState) (ctx : CommandContext) : ParseResult :=
  let input := pyStrip (pyRstripIf isTagChar
    (pyRemovePrefix ctx.workingString st.commandPrefix))
  if input ≠ [] then
    match pySplitChar st.delimitingStr input with
    | [] => ⟨[], [], none⟩
    | name :: args =>
      match ciGet st.commands name with
      | some cmd => runCommand st cmd ctx args
      | none => ⟨[], [], some (.notFoundError name)⟩
  else
    ⟨[], [], none⟩

/-! ## Claim C1 — input that does not start with the prefix -/

/-- A parser with prefix `/`, space delimiter and no commands. -/
def c1State : ParserState := ⟨[], [], ("/".data), ' ', ⟨false, false, false⟩⟩

/-- Counterexample to C1 as stated.  The working string `"hello"` does not
start with the configured prefix `"/"`, yet `parse` does not do nothing: it
raises `NotFoundError` for the token `"hello"`, because
`str.removeprefix` leaves a non-matching string unchanged and parsing
proceeds on it. -/
theorem C1_no_prefix_counterexample :
    parse c1State ⟨("hello".data), ⟨[], 0⟩⟩ =
      ⟨[], [], some (.notFoundError ("hello".data))⟩ := rfl

/-- **C1 (amended).** For a working string that does not start with the
configured prefix, `parse` processes the string unchanged rather than
ignoring it: it does nothing only when the stripped remainder is empty;
otherwise it resolves the first token as a command name, raising
`NotFoundError` (with no feedback and no log) when that token names no
registered command. -/
theorem C1_no_prefix_behaviour (st : ParserState) (ctx : CommandContext)
    (hpre : pyStartswith ctx.workingString st.commandPrefix = false) :
    (pyStrip (pyRstripIf isTagChar ctx.workingString) = [] →
      parse st ctx = ⟨[], [], none⟩)
    ∧ (∀ (name : Str) (args : List Str),
        pySplitChar st.delimitingStr (pyStrip (pyRstripIf isTagChar ctx.workingString))
          = name :: args →
        pyStrip (pyRstripIf isTagChar ctx.workingString) ≠ [] →
        ciGet st.commands name = none →
        parse st ctx = ⟨[], [], some (.notFoundError name)⟩) := by
  have hid : pyRemovePrefix ctx.workingString st.commandPrefix = ctx.workingString := by
    unfold pyRemovePrefix
    rw [if_neg]
    intro hcon
    rw [pyStartswith, hcon] at hpre
    exact Bool.true_eq_false.mp hpre
  constructor
  · intro hempty
    unfold parse
    rw [hid]
    simp [hempty]
  · intro name args hsplit hne hget
    unfold parse
    rw [hid]
    simp only [if_pos hne, hsplit, hget]

/-- Witness for C1 (amended): the empty registry, a prefix `/` and the
non-prefixed working string `"hello"` hit the `NotFoundError` branch. -/
theorem C1_no_prefix_behaviour_witness :
    parse c1State ⟨("hello".data), ⟨[], 0⟩⟩ =
      ⟨[], [], some (.notFoundError ("hello".data))⟩ :=
  (C1_no_prefix_behaviour c1State ⟨("hello".data), ⟨[], 0⟩⟩ (by rfl)).2
    ("hello".data) [] (by rfl) (by decide) (by rfl)

/-! ## Claim C8 — exception wrapping and what reaches the caller of `parse` -/

/-- A command whose entry point raises a `ValueError`. -/
def c8Fn : CmdFn := fun _ _ => .error (.other ("ValueError".data) ("boom".data))

def c8Cmd : Command := ⟨.mk ("crash".data) [] [] 0 false [], c8Fn⟩

def c8State : ParserState :=
  ⟨[(("crash".data), c8Cmd)], [], ("/".data), ' ', ⟨false, false, false⟩⟩

/-- Counterexample to C8 as stated.  The executable of `crash` raises a
`ValueError`; `Command._execute` wraps it in a `CommandError` carrying it
as the cause, and `parse` logs the cause — but `parse` then returns
normally (no exception at all reaches the caller), instead of re-raising
the unwrapped `ValueError` as the claim requires. -/
theorem C8_swallowed_cause_counterexample :
    parse c8State ⟨("/crash".data), ⟨[], 0⟩⟩ =
      ⟨[], [("ValueError while executing command: boom".data)], none⟩
    ∧ Command.execute c8Cmd ⟨false, false, false⟩ ⟨("/crash".data), ⟨[], 0⟩⟩ [] =
        .error (.commandError
          (some (.other ("ValueError".data) ("boom".data)))
          (commandFailMsg [] ("crash".data))) :=
  ⟨rfl, rfl⟩

/-- **C8 (amended).** Every exception raised by a command's bound
executable is caught and re-wrapped as a `CommandError` carrying the
original as its cause.  When `parse` catches that `CommandError` it logs
the wrapped cause, relays the message of a usage-error cause to the caller
with the `!#prefix#!` placeholder replaced by the live prefix, and
re-raises the unwrapped cause (never the wrapper) **only when the cause is
itself a `CommandError`**; a cause outside the `CommandError` hierarchy is
logged and swallowed, and `parse` returns normally. -/
theorem C8_wrap_and_selective_reraise (st : ParserState) (cmd : Command)
    (ctx : CommandContext) (args : List Str) (e : PyExc)
    (hd1 : cmd.node.disabled = false)
    (hd2 : (cmd.finalNode args).disabled = false)
    (hp : ctx.source.hasPermission (cmd.finalNode args).permission = true
          ∨ st.cfg.ignorePermission = true)
    (hf : cmd.fn args ctx = .error e) :
    cmd.execute st.cfg ctx args =
      .error (.commandError (some e)
        (commandFailMsg ctx.source.displayName cmd.node.name))
    ∧ runCommand st cmd ctx args =
        ⟨(match e with
          | .improperUsageError m =>
              if m ≠ [] then [pyReplaceAll ("!#prefix#!".data) st.commandPrefix m]
              else []
          | _ => []),
         [e.clsName ++ (" while executing command: ".data) ++ e.msg],
         if e.isCommandError then some e else none⟩ := by
  have hexec : cmd.execute st.cfg ctx args =
      .error (.commandError (some e)
        (commandFailMsg ctx.source.displayName cmd.node.name)) := by
    unfold Command.execute
    rcases hp with hp | hp <;> simp [hd1, hd2, hp, hf]
  refine ⟨hexec, ?_⟩
  unfold runCommand
  rw [hexec]
  simp only [PyExc.parent]
  cases e <;> rfl

/-- Witness for C8 (amended) at the concrete `crash` command raising a
`ValueError` from a caller of permission 0. -/
theorem C8_wrap_and_selective_reraise_witness :
    Command.execute c8Cmd c8State.cfg ⟨[], ⟨[], 0⟩⟩ [] =
      .error (.commandError
        (some (.other ("ValueError".data) ("boom".data)))
        (commandFailMsg [] ("crash".data)))
    ∧ runCommand c8State c8Cmd ⟨[], ⟨[], 0⟩⟩ [] =
        ⟨[], [("ValueError while executing command: boom".data)], none⟩ :=
  C8_wrap_and_selective_reraise c8State c8Cmd ⟨[], ⟨[], 0⟩⟩ []
    (.other ("ValueError".data) ("boom".data)) rfl rfl (Or.inl rfl) rfl

/-! ## `dyncommands.parser` — the manifest store and the mutation operations -/

/-- `ParserData` (`schemas/_impl.py`): the manifest root —
`commandPrefix` plus the ordered command list. -/
structure ParserData where
  commandPrefix : Str
  commands : List CommandData

/-- The load outcome of one `zzz__<name>.py` script file, at the boundary
to the external sandbox collaborator: the file compiles and its namespace
binds `command` to an entry point, it compiles without binding `command`,
or compilation raises (`SyntaxError`/`NotImplementedError`). -/
inductive ScriptStatus where
  | loadsTo (f : CmdFn)
  | loadsNoCommand
  | broken
  | text (lines : List Str)

/-- The file-system state the parser reads and writes: the parsed content
of `commands.json` and the `zzz__<name>.py` script files keyed by command
name (an absent key is a missing file). -/
structure Disk where
  manifest : ParserData
  scripts : List (Str × ScriptStatus)

/-- Plain (case-sensitive) dict insertion: an existing key is updated in
place, a new key is appended. -/
def assocInsert (d : List (Str × CommandData)) (k : Str) (v : CommandData) :
    List (Str × CommandData) :=
  if d.any (fun p => p.1 == k) then
    d.map (fun p => if p.1 == k then (k, v) else p)
  else
    d ++ [(k, v)]

/-- The dict comprehension `{command.name: command for command in data.commands}`. -/
def nameAssoc (l : List CommandData) : List (Str × CommandData) :=
  l.foldl (fun d c => assocInsert d c.name c) []

/-- Plain dict lookup. -/
def assocGet (d : List (Str × CommandData)) (k : Str) : Option CommandData :=
  (d.find? (fun p => p.1 == k)).map Prod.snd

/-- `dict.pop(k, None)` as the remaining entries. -/
def assocErase (d : List (Str × CommandData)) (k : Str) : List (Str × CommandData) :=
  d.filter (fun p => !(p.1 == k))

/-- `list(commands.values())`. -/
def assocValues (d : List (Str × CommandData)) : List CommandData :=
  d.map Prod.snd

/-- Lookup of a script file on disk. -/
def scriptGet (dk : Disk) (name : Str) : Option ScriptStatus :=
  (dk.scripts.find? (fun p => p.1 == name)).map Prod.snd

/-- `CommandData` with its `disabled` key set. -/
def CommandData.withDisabled : CommandData → Bool → CommandData
  | .mk n u d p f c o _, v => .mk n u d p f c o v

/-- `Node` with its `disabled` attribute set. -/
def Node.withDisabled : Node → Bool → Node
  | .mk n u d p _ c, v => .mk n u d p v c

/-- In-place update of the in-memory command set, as performed by
`self.commands.get(command_name).disabled = value` (the stored key is not
touched). -/
def ciSetDisabled (d : List (Str × Command)) (k : Str) (v : Bool) :
    List (Str × Command) :=
  d.map (fun p =>
    if pyLower p.1 == pyLower k then (p.1, ⟨p.2.node.withDisabled v, p.2.fn⟩) else p)

/-- `CommandParser.remove_command` (`parser.py`): re-read the manifest,
veto when the entry's `overridable` is `false`, pop the entry, write the
manifest back, unlink the script file, and on success mirror the removal
into `command_data` and the in-memory command set.  Returns the name on
success and the empty string otherwise, together with the new in-memory
state and disk. -/
def removeCommand (st : ParserState) (dk : Disk) (name : Str) :
    Str × ParserState × Disk :=
  let assoc := nameAssoc dk.manifest.commands
  if ((assocGet assoc name).getD CommandData.empty).overridable == false then
    ([], st, dk)
  else
    let removedPop := (assocGet assoc name).isSome
    let newCommands := assocValues (assocErase assoc name)
    let dk1 : Disk := ⟨⟨dk.manifest.commandPrefix, newCommands⟩, dk.scripts⟩
    let hasScript := (scriptGet dk1 name).isSome
    let dk2 : Disk :=
      if hasScript then ⟨dk1.manifest, dk1.scripts.filter (fun p => !(p.1 == name))⟩
      else dk1
    if removedPop || hasScript then
      (name, ⟨ciErase st.commands name, newCommands, st.commandPrefix,
        st.delimitingStr, st.cfg⟩, dk2)
    else
      ([], st, dk2)

/-- `CommandParser.set_disabled` (`parser.py`): re-read the manifest; veto
(returning `False`, with no write) when the entry's `overridable` is
`false`; otherwise set the entry's `disabled` key — which raises
`KeyError` when the name is absent from the manifest, since the absent
entry's `overridable` resolves to the schema default `true` — mirror the
flag onto the in-memory command (`AttributeError` if it is missing there),
and write the manifest back, returning `True`. -/
def setDisabled (st : ParserState) (dk : Disk) (name : Str) (value : Bool) :
    Except PyExc Bool × ParserState × Disk :=
  let assoc := nameAssoc dk.manifest.commands
  match assocGet assoc name with
  | some cd =>
    if cd.overridable == false then
      (.ok false, st, dk)
    else
      match ciGet st.commands name with
      | none => (.error (.other ("AttributeError".data)
          ("NoneType object has no attribute disabled".data)), st, dk)
      | some _ =>
        let assoc1 := assocInsert assoc name (cd.withDisabled value)
        let st1 : ParserState := ⟨ciSetDisabled st.commands name value,
          st.commandData, st.commandPrefix, st.delimitingStr, st.cfg⟩
        let dk1 : Disk := ⟨⟨dk.manifest.commandPrefix, assocValues assoc1⟩, dk.scripts⟩
        (.ok true, st1, dk1)
  | none =>
    if CommandData.empty.overridable == false then
      (.ok false, st, dk)
    else
      (.error (.other ("KeyError".data) name), st, dk)

/-! ## Claim C7 — `overridable = false` vetoes mutation -/

/-- **C7.** For every manifest entry whose `overridable` key is `false`,
`remove_command` and `set_disabled` on that entry's name change nothing:
the manifest on disk, the in-memory command set and the command's disabled
flag are all as before, and the calls report failure (`''` and `False`). -/
theorem C7_overridable_false_is_noop (st : ParserState) (dk : Disk)
    (name : Str) (value : Bool) (cd : CommandData)
    (hget : assocGet (nameAssoc dk.manifest.commands) name = some cd)
    (hover : cd.overridableKey = some false) :
    setDisabled st dk name value = (.ok false, st, dk)
    ∧ removeCommand st dk name = ([], st, dk) := by
  have hfalse : cd.overridable == false := by
    simp [CommandData.overridable, hover]
  constructor
  · unfold setDisabled
    simp only [hget, hfalse, if_true]
  · unfold removeCommand
    simp only [hget, Option.getD_some, hfalse, if_true]

/-- A one-entry manifest whose entry `locked` is not overridable. -/
def c7Data : CommandData := .mk ("locked".data) [] [] 0 none [] (some false) false

def c7Disk : Disk := ⟨⟨("/".data), [c7Data]⟩, []⟩

def c7State : ParserState :=
  ⟨[(("locked".data), ⟨.mk ("locked".data) [] [] 0 false [], DUMMY_FUNC⟩)],
   [c7Data], ("/".data), ' ', ⟨false, false, false⟩⟩

/-- Witness for C7 at the concrete non-overridable entry `locked`. -/
theorem C7_overridable_false_is_noop_witness :
    setDisabled c7State c7Disk ("locked".data) true = (.ok false, c7State, c7Disk)
    ∧ removeCommand c7State c7Disk ("locked".data) = ([], c7State, c7Disk) :=
  C7_overridable_false_is_noop c7State c7Disk ("locked".data) true c7Data rfl rfl

/-! ## Claim C10 — `set_disabled` on a missing entry raises `KeyError` -/

/-- **C10.** For every command name absent from the manifest's command
list, `set_disabled(name, value)` does not return a boolean failure:
because the missing entry's `overridable` resolves to the schema default
`true`, the code falls into `commands[command_name].disabled = value` and
raises `KeyError` before the manifest is written, leaving the on-disk
manifest and the in-memory command set unchanged. -/
theorem C10_missing_entry_keyerror (st : ParserState) (dk : Disk)
    (name : Str) (value : Bool)
    (habsent : assocGet (nameAssoc dk.manifest.commands) name = none) :
    setDisabled st dk name value =
      (.error (.other ("KeyError".data) name), st, dk) := by
  unfold setDisabled
  simp only [habsent]
  rfl

/-- Witness for C10: disabling the unknown name `ghost` on the `locked`
manifest raises `KeyError` and changes nothing. -/
theorem C10_missing_entry_keyerror_witness :
    setDisabled c7State c7Disk ("ghost".data) true =
      (.error (.other ("KeyError".data) ("ghost".data)), c7State, c7Disk) :=
  C10_missing_entry_keyerror c7State c7Disk ("ghost".data) true rfl

/-! ## `dyncommands.parser` — `reload` -/

/-- The `Node` a `CommandData` record describes, as `Command.__init__`
builds it.  (In the source the children are built by
`Node(parent=self, **props)` from each child record's present keys; the
recognised `Node` keyword arguments are exactly the node fields, which is
why `CommandData` stores its children directly as node data.) -/
def CommandData.toNode (c : CommandData) : Node :=
  .mk c.name c.usage c.description c.permission c.disabled c.children

/-- Modelled from the spec: whether a script body written by `add_command`
binds the fixed convention entry point — the sandbox compile/exec step is
the external RestrictedPython collaborator, and per the spec a loadable
script is one defining the entry point named `command`, bound by
`locals_.get('command', DUMMY_FUNC)`. -/
def scriptBindsEntry (lines : List Str) : Bool :=
  lines.any (fun l => pyStartswith l ("def command(".data))

/-- Modelled from the spec: the stand-in value for an externally compiled
entry point of a script body written by `add_command` (its behaviour lives
outside the embedding; only its presence or absence is meaningful here). -/
def textEntryFn (_lines : List Str) : CmdFn := fun _ _ => .ok none

/-- `Command.__init__` together with `CommandParser._load_module`
(`parser.py`): build the node data; when `function` is `true`, load the
script — a missing or uncompilable file triggers
`self.remove_command(command.name)` (mutating the manifest on disk and the
current in-memory state) and leaves `_function` as `DUMMY_FUNC`; a loaded
file binds `locals_.get('command', DUMMY_FUNC)`. -/
def buildCommand (st : ParserState) (dk : Disk) (data : CommandData) :
    Command × ParserState × Disk :=
  let node := data.toNode
  match data.function with
  | some true =>
    match scriptGet dk data.name with
    | some (.loadsTo f) => (⟨node, f⟩, st, dk)
    | some .loadsNoCommand => (⟨node, DUMMY_FUNC⟩, st, dk)
    | some (.text lines) =>
      (⟨node, if scriptBindsEntry lines then textEntryFn lines else DUMMY_FUNC⟩, st, dk)
    | some .broken =>
      let r := removeCommand st dk data.name
      (⟨node, DUMMY_FUNC⟩, r.2.1, r.2.2)
    | none =>
      let r := removeCommand st dk data.name
      (⟨node, DUMMY_FUNC⟩, r.2.1, r.2.2)
  | _ => (⟨node, DUMMY_FUNC⟩, st, dk)

/-- `CommandParser.reload` (`parser.py`): read the manifest once, set the
prefix and `command_data` from it, then build a `Command` for every record
of that single read (each construction may, as a side effect, heal the
manifest on disk through `remove_command`), and finally assign the freshly
built dict to `self.commands` — overwriting whatever the heal removed from
the old in-memory set. -/
def reload (st : ParserState) (dk : Disk) : ParserState × Disk :=
  let jd := dk.manifest
  let st1 : ParserState := ⟨st.commands, jd.commands, jd.commandPrefix,
    st.delimitingStr, st.cfg⟩
  let built := jd.commands.foldl
    (fun (acc : List (Str × Command) × ParserState × Disk) data =>
      let r := buildCommand acc.2.1 acc.2.2 data
      (acc.1 ++ [(data.name, r.1)], r.2.1, r.2.2))
    ([], st1, dk)
  (⟨ciFromList built.1, built.2.1.commandData, built.2.1.commandPrefix,
    built.2.1.delimitingStr, built.2.1.cfg⟩, built.2.2)

/-! ## Claim C2 — broken commands after `reload` -/

/-- A manifest with a single loadable command `broken` whose backing
script file is missing. -/
def c2Data : CommandData := .mk ("broken".data) [] [] 0 (some true) [] none false

def c2Disk : Disk := ⟨⟨("/".data), [c2Data]⟩, []⟩

def c2State : ParserState := ⟨[], [], ("/".data), ' ', ⟨false, false, false⟩⟩

/-- **C2 (evaluation at the failing input).**  Reloading a parser from a
manifest whose only entry `broken` has `function = true` and no backing
script file heals the manifest on disk and the `command_data` mirror
(`remove_command` runs during construction), yet the command **does**
appear in the parser's in-memory command set once `reload` finishes —
`reload` performs no second manifest read, and its final assignment
rebuilds `self.commands` from the first read, overwriting the healing.
Only a second call to `reload` clears it.  This contradicts the claim's
self-healing invariant. -/
theorem C2_broken_command_survives_reload :
    (ciGet (reload c2State c2Disk).1.commands ("broken".data)).isSome = true
    ∧ (reload c2State c2Disk).2.manifest.commands = []
    ∧ (reload c2State c2Disk).1.commandData = []
    ∧ ciGet (reload (reload c2State c2Disk).1 (reload c2State c2Disk).2).1.commands
        ("broken".data) = none := by
  refine ⟨rfl, rfl, rfl, rfl⟩

/-! ## `dyncommands.parser` — `add_command` -/

/-- `str.splitlines(True)`: split into lines keeping the terminators.
(Only `'\n'` terminators are modelled; the exotic terminators Python also
recognises do not occur in command scripts.) -/
def pySplitlinesKeep : Str → List Str
  | [] => []
  | c :: rest =>
    if c = '\n' then
      ['\n'] :: pySplitlinesKeep rest
    else
      match pySplitlinesKeep rest with
      | [] => [[c]]
      | t :: ts => (c :: t) :: ts

/-- `str.split(sep, 1)` for a one-character separator, as an `Option`
(`none` where Python's `[1]` subscript would raise `IndexError`). -/
def splitFirst (sep : Char) : Str → Option (Str × Str)
  | [] => none
  | c :: rest =>
    if c = sep then some ([], rest)
    else (splitFirst sep rest).map (fun p => (c :: p.1, p.2))

/-- `utils.ireplace(text, old, '', 1)` as `get_data` calls it: with the
positive count the replacement loop (`while index < len(text) and count < 0`)
never runs, so the call returns the replacement when the whole text equals
`old` case-insensitively, and `text` unchanged otherwise (for an empty
`old`, `text.replace('', '')` is `text` again). -/
def ireplaceOnce (text old new : Str) : Str :=
  if old = [] then text
  else if pyLower text = pyLower old then new
  else text

/-- `get_data(line_, name_)` inside `add_command`:
`ireplace(line_, name_, '', 1).split(':', 1)[1].strip()`; `none` models the
uncaught `IndexError` when the line has no colon. -/
def getData (line varName : Str) : Option Str :=
  (splitFirst ':' (ireplaceOnce line varName [])).map (fun p => pyStrip p.2)

/-- Python `int(s)` on a decimal literal: optional surrounding whitespace,
optional sign, digits.  (`int()`'s underscore grouping is not modelled;
the parser feeds it stripped header payloads.)  `none` is `ValueError`. -/
def pyInt (s : Str) : Option Int :=
  let t := pyStrip s
  let core : Str × Bool :=
    match t with
    | '+' :: rest => (rest, false)
    | '-' :: rest => (rest, true)
    | _ => (t, false)
  if core.1 ≠ [] && core.1.all (fun c => c.isDigit) then
    let n : Nat := core.1.foldl (fun acc c => acc * 10 + (c.toNat - 48)) 0
    some (if core.2 then -(n : Int) else (n : Int))
  else
    none

/-- Set insertion (`set.add`) for the line-index sets of `add_command`. -/
def setAdd {α : Type} [BEq α] (l : List α) (x : α) : List α :=
  if l.contains x then l else l ++ [x]

/-- `simple`: the line with spaces and tabs removed, stripped, lowercased. -/
def simpleOf (line : Str) : Str :=
  pyLower (pyStrip (pyReplaceAll ("\t".data) []
    (pyReplaceAll (" ".data) [] line)))

/-- `uncommented`: the line stripped, with one leading `#` removed. -/
def uncommentedOf (line : Str) : Str :=
  pyRemovePrefix (pyStrip line) ("#".data)

def tripleDouble : Str := "\"\"\"".data

def tripleSingle : Str := "'''".data

/-- The NUL character `add_command` marks removed lines with. -/
def nulChar : Char := Char.ofNat 0

/-- The running state of the metadata scan in `add_command`: the five
`command_data` slots, the entry point's name and line, the two index sets
and the docstring flag. -/
structure ScanState where
  name : Str
  usage : Str
  description : Str
  permission : Int
  childrenData : List Node
  funcName : Str
  funcLine : Nat
  toRemove : List Nat
  subAt : List (Nat × Nat)
  inDoc : Bool

/-- One iteration of the `for marker in doc_markers` loop: opening
single-line and multi-line docstrings, and closing multi-line ones.  The
accumulator is `(in_docstring, lines_to_sub_at, do_continue)`; the error
is the uncaught `ValueError` of `line.index(marker)` when the marker
appears in `simple` but not in the raw line. -/
def docMarkerStep (i : Nat) (line simple marker : Str)
    (acc : Bool × List (Nat × Nat) × Bool) :
    Except Unit (Bool × List (Nat × Nat) × Bool) :=
  let (inDoc, subs, _) := acc
  if pyStartswith simple marker && !inDoc then
    match strFindFrom simple marker 1 with
    | none => .ok (true, subs, true)
    | some second => .ok (inDoc, setAdd subs (i, second + marker.length), true)
  else if strContains simple marker && inDoc then
    match strFindFrom line marker 0 with
    | none => .error ()
    | some j => .ok (false, setAdd subs (i, j + marker.length), true)
  else
    .ok acc

/-- One iteration of the main `for i, line in enumerate(lines)` loop of
`add_command`.  `jsonChildren` is the external `json.loads` collaborator
used by the `# Children:` header (it receives the payload with `'`
translated to `"`; a `none` result is the caught `ValueError`, keeping
the prior value). -/
def scanLine (jsonChildren : Str → Option (List Node)) (st : ScanState)
    (i : Nat) (line : Str) : Except Unit ScanState := do
  let simple := simpleOf line
  let uncommented := uncommentedOf line
  let gate ←
    if strContains line tripleDouble || strContains line tripleSingle then do
      let acc1 ← docMarkerStep i line simple tripleDouble (st.inDoc, st.subAt, false)
      let acc2 ← docMarkerStep i line simple tripleSingle acc1
      pure ({ st with inDoc := acc2.1, subAt := acc2.2.1 }, acc2.2.2)
    else
      pure (st, false)
  let st := gate.1
  if gate.2 then
    return st
  if st.inDoc then
    return st
  if st.funcName = [] then
    if pyStartswith line ("def".data) then
      let fname := pyReplaceAll ("_".data) ("-".data)
        ((pySplitChar '(' (pyRemovePrefix (pyStrip line) ("def ".data))).headD [])
      return { st with funcName := fname,
                       name := if st.name = [] then fname else st.name,
                       funcLine := i }
    if simple ≠ [] && !pyStartswith simple ("#".data) then
      return { st with toRemove := setAdd st.toRemove i }
    if pyStartswith simple ("#children".data) && st.childrenData.isEmpty then
      match getData uncommented ("children".data) with
      | none => throw ()
      | some payload =>
        let parsed := (jsonChildren
          (pyReplaceAll ("'".data) ("\"".data) payload)).getD st.childrenData
        return { st with childrenData := parsed }
    if pyStartswith simple ("#name".data) && st.name = [] then
      match getData uncommented ("name".data) with
      | none => throw ()
      | some v => return { st with name := v }
    if pyStartswith simple ("#usage".data) && st.usage = [] then
      match getData uncommented ("usage".data) with
      | none => throw ()
      | some v => return { st with usage := v }
    if pyStartswith simple ("#description".data) && st.description = [] then
      match getData uncommented ("description".data) with
      | none => throw ()
      | some v => return { st with description := v }
    if pyStartswith simple ("#permission".data) && st.permission = 0 then
      match getData uncommented ("permission".data) with
      | none => throw ()
      | some v =>
        match pyInt v with
        | some n => return { st with permission := n }
        | none => return st
    return st
  else
    if simple ≠ [] && !(pyStartswith line (" ".data) || pyStartswith line ("\t".data)) then
      if !pyStartswith simple ("#".data) then
        return { st with toRemove := setAdd st.toRemove i }
      else
        return st
    else
      return st

/-- The whole metadata scan over the enumerated lines. -/
def scanAll (jsonChildren : Str → Option (List Node)) (st0 : ScanState)
    (lines : List Str) : Except Unit ScanState :=
  lines.enum.foldlM (fun st p => scanLine jsonChildren st p.1 p.2) st0

/-- Write (or overwrite) a script file on disk. -/
def scriptPut (l : List (Str × ScriptStatus)) (k : Str) (v : ScriptStatus) :
    List (Str × ScriptStatus) :=
  if l.any (fun p => p.1 == k) then
    l.map (fun p => if p.1 == k then (k, v) else p)
  else
    l ++ [(k, v)]

/-- `CommandParser.add_command` (`parser.py`), for an inline text body: scan
the lines for header metadata and the entry-point definition; give up
(returning `''`) when no `def` line was found; mark stray top-level lines,
truncate docstring lines, drop marked lines, rename the entry point on the
`def` line by replacing `def {func_name}` (the dash-normalised name) with
`def command`; veto on a non-overridable existing entry; then write the
manifest and the module file and mirror the new command into memory.  The
`Except` error is an uncaught Python exception (`IndexError` from a
colon-less header, `ValueError` from a docstring marker hidden by spaces,
or `IndexError` from popping an out-of-range `func_line`). -/
def addCommand (jsonChildren : Str → Option (List Node)) (st : ParserState)
    (dk : Disk) (text : Str) (kwName kwUsage kwDescription : Str)
    (kwPermission : Int) (kwChildren : List Node) :
    Except Unit (Str × ParserState × Disk) := do
  let lines := pySplitlinesKeep text
  let init : ScanState :=
    ⟨kwName, kwUsage, kwDescription, kwPermission, kwChildren, [], 0, [], [], false⟩
  let sc ← scanAll jsonChildren init lines
  if sc.funcName = [] then
    return ([], st, dk)
  let lines1 := sc.toRemove.foldl
    (fun ls i => ls.set i (pyReplaceAll ("\n".data) [nulChar, '\n'] (ls.getD i [])))
    lines
  let lines2 := sc.subAt.foldl
    (fun ls p => ls.set p.1 ((ls.getD p.1 []).take p.2 ++ ['\n'])) lines1
  let lines3 := lines2.filter (fun l => !([nulChar].isSuffixOf l))
  if sc.funcLine ≥ lines3.length then
    throw ()
  let defLine := pyReplaceFirst (pyStrip (lines3.getD sc.funcLine []))
    (("def ".data) ++ sc.funcName) ("def command".data) ++ ['\n']
  let lines4 := lines3.set sc.funcLine defLine
  let newData : CommandData := .mk sc.name sc.usage sc.description sc.permission
    (some true) sc.childrenData (some true) false
  let assoc := nameAssoc dk.manifest.commands
  if ((assocGet assoc newData.name).getD CommandData.empty).overridable == false then
    return ([], st, dk)
  let assoc1 := assocInsert assoc newData.name newData
  let manifest1 : ParserData := ⟨dk.manifest.commandPrefix, assocValues assoc1⟩
  let dk1 : Disk := ⟨manifest1, scriptPut dk.scripts newData.name (.text lines4)⟩
  let st1 : ParserState := ⟨st.commands, manifest1.commands, st.commandPrefix,
    st.delimitingStr, st.cfg⟩
  let b := buildCommand st1 dk1 newData
  return (newData.name,
    ⟨ciInsert b.2.1.commands newData.name b.1, b.2.1.commandData,
     b.2.1.commandPrefix, b.2.1.delimitingStr, b.2.1.cfg⟩,
    b.2.2)

/-! ## Claim C9 — the `add_command`/`reload` round-trip -/

/-- The script lines a disk holds for a command written by `add_command`. -/
def scriptTextOf (dk : Disk) (name : Str) : Option (List Str) :=
  match scriptGet dk name with
  | some (.text ls) => some ls
  | _ => none

/-- A fresh parser state and an empty manifest for the C9 runs. -/
def c9State : ParserState := ⟨[], [], ("/".data), ' ', ⟨false, false, false⟩⟩

def c9Disk : Disk := ⟨⟨("/".data), []⟩, []⟩

/-- The C9 failing input: a script whose comment header declares name,
usage, description and permission above an entry point whose original name
contains an underscore. -/
def c9Text : Str :=
  ("# Name: roll\n# Usage: roll [n]\n# Description: Rolls dice.\n# Permission: 7\ndef my_func(*args, **kwargs):\n    return None\n").data

/-- The same script with an underscore-free entry-point name. -/
def c9TextOk : Str :=
  ("# Name: roll\n# Usage: roll [n]\n# Description: Rolls dice.\n# Permission: 7\ndef myfunc(*args, **kwargs):\n    return None\n").data

def c9Out : Str × ParserState × Disk :=
  (addCommand (fun _ => none) c9State c9Disk c9Text [] [] [] 0 []).toOption.getD
    ([], c9State, c9Disk)

def c9OutOk : Str × ParserState × Disk :=
  (addCommand (fun _ => none) c9State c9Disk c9TextOk [] [] [] 0 []).toOption.getD
    ([], c9State, c9Disk)

/-- **C9 (evaluation at the failing input).**  `add_command` on `c9Text`
succeeds and persists a manifest entry whose name, usage, description and
permission equal the header-declared values — but the persisted script's
entry point is **not** renamed to the fixed convention name: the rename
replaces `def {func_name}` where `func_name` already had `_` mapped to
`-`, a pattern that cannot occur in the script whenever the original name
contains an underscore, so the `def my_func` line survives verbatim and no
line defines `command` (on a later `reload` the entry point falls back to
the dummy function).  The same script with the underscore-free name
`myfunc` is renamed as the claim describes, isolating the slip. -/
theorem C9_underscore_entry_point_not_renamed :
    c9Out.1 = ("roll".data)
    ∧ assocGet (nameAssoc c9Out.2.2.manifest.commands) ("roll".data) =
        some (.mk ("roll".data) ("roll [n]".data) ("Rolls dice.".data) 7
          (some true) [] (some true) false)
    ∧ scriptTextOf c9Out.2.2 ("roll".data) =
        some [("# Name: roll\n".data), ("# Usage: roll [n]\n".data),
          ("# Description: Rolls dice.\n".data), ("# Permission: 7\n".data),
          ("def my_func(*args, **kwargs):\n".data), ("    return None\n".data)]
    ∧ ((scriptTextOf c9Out.2.2 ("roll".data)).getD []).all
        (fun l => !pyStartswith l ("def command".data)) = true
    ∧ scriptTextOf c9OutOk.2.2 ("roll".data) =
        some [("# Name: roll\n".data), ("# Usage: roll [n]\n".data),
          ("# Description: Rolls dice.\n".data), ("# Permission: 7\n".data),
          ("def command(*args, **kwargs):\n".data), ("    return None\n".data)] := by
  refine ⟨rfl, rfl, rfl, by decide, rfl⟩

end Dyncommands
